import Mathlib

/-!
# Verification of the Adaptive Quiz Attempt Engine

A shallow embedding of the quiz engine of `apps/quizzes`:
the difficulty adapter (`next_difficulty_after`), the tiered question
selector (`select_next_question`), the transactional answer-submission
service (`submit_answer`), the attempt-start view
(`StartAttemptView.create`), and the student-facing question serializer
(`QuestionStudentSerializer`).

Difficulty and status values are stored as strings in the source
(`models.TextChoices` backed by `CharField`s), so they are embedded as
`String`s here; the defensive fallback in `next_difficulty_after` is
only expressible that way.

The database is a record of tables (lists of rows).  Randomness
(`random.choice` over a list of candidate ids) is embedded as an
explicit `choice : List Nat → Nat` parameter; theorems assume only the
contract that a choice over a non-empty list yields one of its members.
`submit_answer` is wrapped in `transaction.atomic` in the source and is
embedded as a single state transition; `StartAttemptView.create` has no
transaction wrapper (each ORM write commits on its own under
autocommit), so it is embedded as the list of successively committed
database states.
-/

namespace Quizzes

/-- Difficulty string constants, from `models.Difficulty` (TextChoices). -/
def Difficulty.EASY : String := "EASY"

/-- `models.Difficulty.MEDIUM`. -/
def Difficulty.MEDIUM : String := "MEDIUM"

/-- `models.Difficulty.HARD`. -/
def Difficulty.HARD : String := "HARD"

/-- Attempt status constants, from `models.AttemptStatus` (TextChoices). -/
def AttemptStatus.IN_PROGRESS : String := "IN_PROGRESS"

/-- `models.AttemptStatus.COMPLETED`. -/
def AttemptStatus.COMPLETED : String := "COMPLETED"

/-- `selection.DIFFICULTY_ORDER = [EASY, MEDIUM, HARD]`. -/
def DIFFICULTY_ORDER : List String :=
  [Difficulty.EASY, Difficulty.MEDIUM, Difficulty.HARD]

/--
`selection.next_difficulty_after(current, was_correct)`:
bump one step up on a correct answer, one step down on a wrong one,
staying at the bounds; a `current` outside `DIFFICULTY_ORDER` is first
replaced by MEDIUM.
-/
def next_difficulty_after (current : String) (was_correct : Bool) : String :=
  let current := if DIFFICULTY_ORDER.contains current then current else Difficulty.MEDIUM
  let idx := DIFFICULTY_ORDER.indexOf current
  if was_correct ∧ idx < DIFFICULTY_ORDER.length - 1 then
    DIFFICULTY_ORDER.getD (idx + 1) current
  else if ¬ was_correct ∧ idx > 0 then
    DIFFICULTY_ORDER.getD (idx - 1) current
  else
    current

/-- Membership in the closed difficulty scale, decidable. -/
def validDifficulty (d : String) : Prop := d ∈ DIFFICULTY_ORDER

instance (d : String) : Decidable (validDifficulty d) := by
  unfold validDifficulty; infer_instance

/-- `models.Question` row: prompt, 4 choices, `correct_index`,
difficulty, soft-delete flag, chapter FK. -/
structure Question where
  id : Nat
  chapter : Nat
  prompt : String
  choices : List String
  correct_index : Int
  difficulty : String
  is_active : Bool
  deriving DecidableEq, Repr

/-- `models.Quiz` row (the fields the engine reads). -/
structure Quiz where
  id : Nat
  chapter : Nat
  num_questions : Nat
  is_published : Bool
  deriving DecidableEq, Repr

/-- `models.QuizAttempt` row.  The quiz FK is embedded as the quiz row
itself (the ORM resolves `attempt.quiz` to the object); it is an
`Option` only to express the defensive `attempt.quiz is None` check in
`select_next_question` — the column itself is NOT NULL.
`current_question` holds the FK id.  `ended_at` is an abstract clock
tick. -/
structure QuizAttempt where
  id : Nat
  student : Nat
  quiz : Option Quiz
  current_question : Option Nat
  status : String
  current_difficulty : String
  num_answered : Nat
  num_correct : Nat
  ended_at : Option Nat
  deriving DecidableEq, Repr

/-- `models.AttemptAnswer` row (FKs by id). -/
structure AttemptAnswer where
  attempt : Nat
  question : Nat
  selected_index : Int
  is_correct : Bool
  deriving DecidableEq, Repr

/-- The database state: the tables the engine touches. -/
structure DB where
  questions : List Question
  attempts : List QuizAttempt
  answers : List AttemptAnswer
  deriving DecidableEq, Repr

/-- `Question.objects.get(id=...)`: first row with the given primary key. -/
def getQuestion (db : DB) (id : Nat) : Option Question :=
  db.questions.find? (fun q => q.id == id)

/-- `selection._unused_questions_for`: active questions of the chapter
at the given difficulty whose id is not excluded. -/
def unused_questions_for (db : DB) (chapter : Nat) (difficulty : String)
    (excluded_ids : List Nat) : List Question :=
  db.questions.filter (fun q =>
    q.chapter == chapter && q.difficulty == difficulty && q.is_active &&
      !(excluded_ids.contains q.id))

/-- The target difficulty of `select_next_question`:
`attempt.current_difficulty if attempt.current_difficulty in
DIFFICULTY_ORDER else Difficulty.MEDIUM`. -/
def targetDifficulty (attempt : QuizAttempt) : String :=
  if DIFFICULTY_ORDER.contains attempt.current_difficulty then
    attempt.current_difficulty
  else Difficulty.MEDIUM

/-- The `adjacents` list built in `select_next_question`: one step down
(when it exists) followed by one step up (when it exists). -/
def adjacentDifficulties (target : String) : List String :=
  let idx := DIFFICULTY_ORDER.indexOf target
  (if 1 ≤ idx then [DIFFICULTY_ORDER.getD (idx - 1) target] else []) ++
    (if idx + 1 < DIFFICULTY_ORDER.length then [DIFFICULTY_ORDER.getD (idx + 1) target] else [])

/-- The any-difficulty fallback queryset of `select_next_question`
(step 3): active questions of the chapter not yet answered. -/
def chapter_pool (db : DB) (chapter : Nat) (excluded_ids : List Nat) : List Question :=
  db.questions.filter (fun q =>
    q.chapter == chapter && q.is_active && !(excluded_ids.contains q.id))

/-- The `for diff in ...` loop body of `select_next_question`: pick from
the first difficulty whose candidate list is non-empty
(`random.choice` over the ids, then `Question.objects.get`). -/
def tryTiers (db : DB) (choice : List Nat → Nat) (chapter : Nat)
    (excluded : List Nat) : List String → Option Question
  | [] => none
  | d :: rest =>
    let candidate_ids := (unused_questions_for db chapter d excluded).map Question.id
    if candidate_ids.isEmpty then tryTiers db choice chapter excluded rest
    else getQuestion db (choice candidate_ids)

/-- `selection.select_next_question(attempt, answered_question_ids)`:
target tier, then adjacent tiers (down before up), then any active
unused question of the chapter, else `None`; `None` immediately when
the attempt has no quiz. -/
def select_next_question (db : DB) (choice : List Nat → Nat)
    (attempt : QuizAttempt) (answered_question_ids : List Nat) : Option Question :=
  match attempt.quiz with
  | none => none
  | some quiz =>
    let target := targetDifficulty attempt
    match tryTiers db choice quiz.chapter answered_question_ids [target] with
    | some q => some q
    | none =>
      match tryTiers db choice quiz.chapter answered_question_ids
          (adjacentDifficulties target) with
      | some q => some q
      | none =>
        let candidate_ids := (chapter_pool db quiz.chapter answered_question_ids).map Question.id
        if candidate_ids.isEmpty then none
        else getQuestion db (choice candidate_ids)

/-- Result of `attempts.submit_answer`: the error dicts
(`{"error": ..., "status_code": ...}`), the completed result, or the
result carrying the next question. -/
inductive SubmitOutcome
  | error (message : String) (status_code : Nat)
  | completed (is_correct : Bool)
  | next (is_correct : Bool) (next_question : Question)
  deriving DecidableEq, Repr

/-- Whether a `submit_answer` result is one of the error dicts. -/
def SubmitOutcome.isError : SubmitOutcome → Bool
  | .error _ _ => true
  | _ => false

/-- `attempt.save(...)`: write the row with this primary key back. -/
def setAttempt (db : DB) (a : QuizAttempt) : DB :=
  { db with attempts := db.attempts.map (fun x => if x.id == a.id then a else x) }

/-- The `answered_ids` query in `submit_answer`: question ids of the
AttemptAnswer rows of this attempt. -/
def answeredIds (db : DB) (attemptId : Nat) : List Nat :=
  (db.answers.filter (fun a => a.attempt == attemptId)).map AttemptAnswer.question

/-- `AttemptAnswer.objects.create(attempt=..., question=...,
selected_index=..., is_correct=...)` in `submit_answer`. -/
def createAnswer (attempt : QuizAttempt) (question : Question) (sel : Int) : AttemptAnswer :=
  { attempt := attempt.id, question := question.id, selected_index := sel,
    is_correct := sel == question.correct_index }

/-- Inserting a created answer row into the answers table. -/
def addAnswer (db : DB) (row : AttemptAnswer) : DB :=
  { db with answers := db.answers ++ [row] }

/-- The counter/difficulty update block of `submit_answer`:
`num_answered += 1`, `num_correct += is_correct`,
`current_difficulty = next_difficulty_after(...)`. -/
def bumpAttempt (attempt : QuizAttempt) (is_correct : Bool) : QuizAttempt :=
  { attempt with
    num_answered := attempt.num_answered + 1,
    num_correct := attempt.num_correct + (if is_correct then 1 else 0),
    current_difficulty := next_difficulty_after attempt.current_difficulty is_correct }

/-- The completion block of `submit_answer`: `status = COMPLETED`,
`ended_at = now`, `current_question = None`. -/
def completeAttempt (a : QuizAttempt) (now : Nat) : QuizAttempt :=
  { a with
    status := AttemptStatus.COMPLETED,
    ended_at := some now,
    current_question := none }

/-- Count of AttemptAnswer rows of an attempt. -/
def answerCount (db : DB) (attemptId : Nat) : Nat :=
  (db.answers.filter (fun a => a.attempt == attemptId)).length

/--
`attempts.submit_answer(attempt, question_id, selected_index)`,
a single atomic transaction (`@transaction.atomic` in the source):
status guard, active-question lookup in the attempt's quiz's chapter,
current-question guard, duplicate guard, answer-row creation, counter
and difficulty update, completion on reaching `num_questions`,
otherwise re-selection of the next question (completing defensively
when none is left).  Error paths leave the database untouched.
-/
def submit_answer (db : DB) (choice : List Nat → Nat) (now : Nat)
    (attempt : QuizAttempt) (question_id : Nat) (selected_index : Int) :
    SubmitOutcome × DB :=
  if attempt.status ≠ AttemptStatus.IN_PROGRESS then
    (.error "Attempt already completed" 400, db)
  else
    match attempt.quiz with
    | none =>
      -- unreachable for persisted rows: the quiz FK is NOT NULL
      (.error "attempt has no quiz" 500, db)
    | some quiz =>
      match db.questions.find? (fun q =>
          q.id == question_id && q.chapter == quiz.chapter && q.is_active) with
      | none => (.error "question not found" 400, db)
      | some question =>
        if attempt.current_question.any (fun cq => cq != question_id) then
          (.error "question is not current" 409, db)
        else if db.answers.any (fun a =>
            a.attempt == attempt.id && a.question == question.id) then
          (.error "question already answered" 409, db)
        else
          let is_correct := selected_index == question.correct_index
          let db1 := addAnswer db (createAnswer attempt question selected_index)
          let attempt1 := bumpAttempt attempt is_correct
          if quiz.num_questions ≤ attempt1.num_answered then
            (.completed is_correct, setAttempt db1 (completeAttempt attempt1 now))
          else
            let db2 := setAttempt db1 attempt1
            match select_next_question db2 choice attempt1 (answeredIds db2 attempt.id) with
            | none =>
              (.completed is_correct, setAttempt db2 (completeAttempt attempt1 now))
            | some nq =>
              (.next is_correct nq,
                setAttempt db2 { attempt1 with current_question := some nq.id })

/-- Outcome of `StartAttemptView.create` after the access checks. -/
inductive StartOutcome
  | conflict (existing_id : Option Nat)
  | completedEmpty (attempt_id : Nat)
  | created (attempt_id : Nat) (question : Question)
  deriving DecidableEq, Repr

/-- The filter of the existing-attempt pre-check:
`quiz=quiz, student=student, status=IN_PROGRESS`. -/
def inProgressFor (a : QuizAttempt) (student : Nat) (quizId : Nat) : Bool :=
  a.student == student && (a.quiz.any fun q => q.id == quizId) &&
    a.status == AttemptStatus.IN_PROGRESS

/-- Whether a start outcome is the 409 conflict response. -/
def StartOutcome.isConflict : StartOutcome → Bool
  | .conflict _ => true
  | _ => false

/-- `QuizAttempt.objects.create(quiz=quiz, student=student)`: a fresh
attempt row with the model defaults (`status=IN_PROGRESS`,
`current_difficulty=MEDIUM`, counters zero, no current question). -/
def startAttemptRow (newId student : Nat) (quiz : Quiz) : QuizAttempt :=
  { id := newId, student := student, quiz := some quiz,
    current_question := none, status := AttemptStatus.IN_PROGRESS,
    current_difficulty := Difficulty.MEDIUM,
    num_answered := 0, num_correct := 0, ended_at := none }

/--
`StartAttemptView.create` after its access checks: pre-check for an
IN_PROGRESS attempt of (student, quiz) (conflict with the existing id),
row creation with the model defaults, first selection with an empty
answered set, then either immediate completion (empty bank) or
assignment of the first question.  The view has no transaction
wrapper, so each ORM write commits on its own: the function returns
the outcome together with the list of successively committed database
states (initial state first). -/
def start_attempt (db : DB) (choice : List Nat → Nat) (now : Nat) (newId : Nat)
    (student : Nat) (quiz : Quiz) : StartOutcome × List DB :=
  match db.attempts.find? (fun a => inProgressFor a student quiz.id) with
  | some existing => (.conflict (some existing.id), [db])
  | none =>
    let attempt := startAttemptRow newId student quiz
    let db1 : DB := { db with attempts := db.attempts ++ [attempt] }
    match select_next_question db1 choice attempt [] with
    | none =>
      let attempt1 := { attempt with
        status := AttemptStatus.COMPLETED, ended_at := some now }
      (.completedEmpty newId, [db, db1, setAttempt db1 attempt1])
    | some q =>
      let attempt1 := { attempt with current_question := some q.id }
      (.created newId q, [db, db1, setAttempt db1 attempt1])

/-- `QuestionDetailView.destroy`: soft delete —
`question.is_active = False; question.save(...)`. -/
def question_destroy (db : DB) (questionId : Nat) : DB :=
  { db with questions := db.questions.map (fun q =>
      if q.id == questionId then { q with is_active := false } else q) }

/-- A serialized JSON-ish value. -/
inductive Val
  | nat (n : Nat)
  | int (i : Int)
  | str (s : String)
  | strList (l : List String)
  deriving DecidableEq, Repr

/-- The field list of `QuestionStudentSerializer.Meta`. -/
def questionStudentFields : List String := ["id", "prompt", "choices", "difficulty"]

/-- `QuestionStudentSerializer(question).data`: exactly the fields
`id`, `prompt`, `choices`, `difficulty`. -/
def serializeQuestionStudent (q : Question) : List (String × Val) :=
  [("id", .nat q.id), ("prompt", .str q.prompt),
   ("choices", .strList q.choices), ("difficulty", .str q.difficulty)]

/-- The question object inside a `StartAttemptView.create` response
(`"question": QuestionStudentSerializer(first_question).data`). -/
def startAttemptQuestionPayload (out : StartOutcome) : Option (List (String × Val)) :=
  match out with
  | .created _ q => some (serializeQuestionStudent q)
  | _ => none

/-- The question object inside a `SubmitAnswerView.create` response
(`"next_question": QuestionStudentSerializer(...).data`). -/
def submitAnswerQuestionPayload (out : SubmitOutcome) : Option (List (String × Val)) :=
  match out with
  | .next _ q => some (serializeQuestionStudent q)
  | _ => none

/-- The question object inside an `AttemptDetailView` response
(`current_question = QuestionStudentSerializer(...)` on
`AttemptDetailSerializer`). -/
def attemptDetailQuestionPayload (db : DB) (attempt : QuizAttempt) :
    Option (List (String × Val)) :=
  attempt.current_question.bind (fun cq => (getQuestion db cq).map serializeQuestionStudent)

/-- Invariant 1 of the data model: at most one IN_PROGRESS attempt per
(student, quiz) pair. -/
def atMostOneInProgress (db : DB) : Prop :=
  ∀ a1 ∈ db.attempts, ∀ a2 ∈ db.attempts,
    a1.status = AttemptStatus.IN_PROGRESS → a2.status = AttemptStatus.IN_PROGRESS →
    a1.student = a2.student → a1.quiz.map Quiz.id = a2.quiz.map Quiz.id → a1 = a2

/-- Invariant 2 of the data model, relativised to one attempt row:
`num_answered` equals the AttemptAnswer row count, and an IN_PROGRESS
attempt still has room (`num_answered < num_questions`) — the shape the
engine actually maintains when `num_questions ≥ 1`. -/
def countersInv (db : DB) (a : QuizAttempt) : Prop :=
  a.num_answered = answerCount db a.id ∧
  match a.quiz with
  | none => True
  | some quiz =>
    (a.status = AttemptStatus.IN_PROGRESS → a.num_answered < quiz.num_questions) ∧
    (a.num_answered ≤ quiz.num_questions)

instance (db : DB) (a : QuizAttempt) : Decidable (countersInv db a) := by
  unfold countersInv
  cases a.quiz <;> exact inferInstance

/-- A concrete instance of the `random.choice` contract used by
witnesses: pick the head of the candidate list. -/
def headChoice (l : List Nat) : Nat := l.headD 0

/-- Sample rows for concrete witnesses: a MEDIUM question. -/
def sampleQ1 : Question :=
  { id := 1, chapter := 1, prompt := "2+2?", choices := ["3", "4", "5", "6"],
    correct_index := 1, difficulty := Difficulty.MEDIUM, is_active := true }

/-- Sample rows for concrete witnesses: an EASY question. -/
def sampleQ2 : Question :=
  { id := 2, chapter := 1, prompt := "5-1?", choices := ["4", "2", "8", "1"],
    correct_index := 0, difficulty := Difficulty.EASY, is_active := true }

/-- Sample rows for concrete witnesses: a HARD question. -/
def sampleQ3 : Question :=
  { id := 3, chapter := 1, prompt := "x^x=4?", choices := ["1", "2", "3", "4"],
    correct_index := 1, difficulty := Difficulty.HARD, is_active := true }

/-- Sample quiz for concrete witnesses (two questions per attempt). -/
def sampleQuiz : Quiz :=
  { id := 7, chapter := 1, num_questions := 2, is_published := true }

/-- Sample IN_PROGRESS attempt at MEDIUM difficulty, current question 1. -/
def sampleAttempt : QuizAttempt :=
  { id := 5, student := 9, quiz := some sampleQuiz, current_question := some 1,
    status := AttemptStatus.IN_PROGRESS, current_difficulty := Difficulty.MEDIUM,
    num_answered := 0, num_correct := 0, ended_at := none }

/-- Sample database for concrete witnesses. -/
def sampleDB : DB :=
  { questions := [sampleQ1, sampleQ2, sampleQ3],
    attempts := [sampleAttempt], answers := [] }


end Quizzes

namespace Quizzes

/-- Behaviour of `next_difficulty_after` on the defensive-fallback branch:
a current value outside `DIFFICULTY_ORDER` is first replaced by MEDIUM. -/
theorem next_difficulty_after_of_not_mem (c : String) (b : Bool)
    (h : c ∉ DIFFICULTY_ORDER) :
    next_difficulty_after c b = next_difficulty_after Difficulty.MEDIUM b := by
  cases b <;> simp [next_difficulty_after, h]

/--
**C3.** `next_difficulty_after` is a total pure function: a correct
answer moves one step up the scale EASY < MEDIUM < HARD capped at HARD,
an incorrect answer one step down capped at EASY, an invalid current
value is treated as MEDIUM before the rule applies, and the result is
always one of EASY, MEDIUM, HARD.
-/
theorem next_difficulty_after_spec :
    (∀ c : String, ∀ b : Bool, validDifficulty (next_difficulty_after c b)) ∧
    (next_difficulty_after Difficulty.EASY true = Difficulty.MEDIUM ∧
     next_difficulty_after Difficulty.MEDIUM true = Difficulty.HARD ∧
     next_difficulty_after Difficulty.HARD true = Difficulty.HARD) ∧
    (next_difficulty_after Difficulty.HARD false = Difficulty.MEDIUM ∧
     next_difficulty_after Difficulty.MEDIUM false = Difficulty.EASY ∧
     next_difficulty_after Difficulty.EASY false = Difficulty.EASY) ∧
    (∀ c : String, ∀ b : Bool, ¬ validDifficulty c →
      next_difficulty_after c b = next_difficulty_after Difficulty.MEDIUM b) := by
  refine ⟨?_, by decide, by decide,
    fun c b hc => next_difficulty_after_of_not_mem c b (by simpa [validDifficulty] using hc)⟩
  intro c b
  by_cases h : validDifficulty c
  · have h' : c = Difficulty.EASY ∨ c = Difficulty.MEDIUM ∨ c = Difficulty.HARD := by
      simpa [validDifficulty, DIFFICULTY_ORDER] using h
    rcases h' with h' | h' | h' <;> subst h' <;> cases b <;> decide
  · rw [next_difficulty_after_of_not_mem c b (by simpa [validDifficulty] using h)]
    cases b <;> decide

/-- **C3 witness.** The fallback conjunct applied at the invalid value
`"BOGUS"`. -/
theorem next_difficulty_after_spec_witness :
    ¬ validDifficulty "BOGUS" ∧
      next_difficulty_after "BOGUS" true = next_difficulty_after Difficulty.MEDIUM true :=
  ⟨by decide, next_difficulty_after_spec.2.2.2 "BOGUS" true (by decide)⟩

/-- Membership in a selection tier, unfolded. -/
theorem mem_unused_questions_for {db : DB} {ch : Nat} {d : String}
    {excl : List Nat} {q : Question} :
    q ∈ unused_questions_for db ch d excl ↔
      q ∈ db.questions ∧ q.chapter = ch ∧ q.difficulty = d ∧
        q.is_active = true ∧ q.id ∉ excl := by
  simp [unused_questions_for, List.mem_filter, and_assoc]

/-- A tier is a sublist of the question table. -/
theorem unused_questions_for_subset {db : DB} {ch : Nat} {d : String}
    {excl : List Nat} {q : Question} (h : q ∈ unused_questions_for db ch d excl) :
    q ∈ db.questions :=
  (mem_unused_questions_for.mp h).1

/-- `Question.objects.get(id=random.choice(ids))` over the ids of a
non-empty sublist of the table lands back in that sublist (primary
keys are unique). -/
theorem getQuestion_choice_mem {db : DB} {choice : List Nat → Nat}
    (hchoice : ∀ l : List Nat, l ≠ [] → choice l ∈ l)
    (hnodup : (db.questions.map Question.id).Nodup)
    {qs : List Question} (hsub : ∀ q ∈ qs, q ∈ db.questions)
    (hne : qs ≠ []) :
    ∃ q ∈ qs, getQuestion db (choice (qs.map Question.id)) = some q := by
  have hids : qs.map Question.id ≠ [] := by
    simpa using hne
  obtain ⟨q0, hq0, hq0id⟩ := List.mem_map.mp (hchoice _ hids)
  have hq0db : q0 ∈ db.questions := hsub q0 hq0
  have hsome : (db.questions.find? (fun q => q.id == choice (qs.map Question.id))).isSome := by
    rw [List.find?_isSome]
    exact ⟨q0, hq0db, by simp [hq0id]⟩
  obtain ⟨q', hq'⟩ := Option.isSome_iff_exists.mp hsome
  have hq'db : q' ∈ db.questions := List.mem_of_find?_eq_some hq'
  have hq'id : q'.id = choice (qs.map Question.id) := by
    simpa using List.find?_some hq'
  have hEq : q' = q0 :=
    List.inj_on_of_nodup_map hnodup hq'db hq0db (by rw [hq'id, hq0id])
  exact ⟨q0, hq0, by rw [getQuestion, hq', hEq]⟩

/-- If `Question.objects.get(id=random.choice(ids))` over the ids of a
non-empty sublist of the table returns a question, that question is in
the sublist. -/
theorem getQuestion_eq_some_mem {db : DB} {choice : List Nat → Nat}
    (hchoice : ∀ l : List Nat, l ≠ [] → choice l ∈ l)
    (hnodup : (db.questions.map Question.id).Nodup)
    {qs : List Question} (hsub : ∀ q ∈ qs, q ∈ db.questions)
    (hne : qs ≠ []) {q : Question}
    (h : getQuestion db (choice (qs.map Question.id)) = some q) : q ∈ qs := by
  obtain ⟨q0, hq0, hq0get⟩ := getQuestion_choice_mem hchoice hnodup hsub hne
  have : some q0 = some q := hq0get ▸ h
  exact Option.some.inj this ▸ hq0

/-- If every tier in the list is empty, the tier loop returns nothing. -/
theorem tryTiers_of_all_empty (db : DB) (choice : List Nat → Nat)
    (ch : Nat) (excl : List Nat) :
    ∀ ds : List String, (∀ d ∈ ds, unused_questions_for db ch d excl = []) →
      tryTiers db choice ch excl ds = none
  | [], _ => rfl
  | d :: rest, h => by
    have hd : unused_questions_for db ch d excl = [] := h d (by simp)
    have hrest := tryTiers_of_all_empty db choice ch excl rest
      (fun d' hd' => h d' (by simp [hd']))
    simp [tryTiers, hd, hrest]

/-- The tier loop: `none` means every tier in the list was empty; a
result comes from the first non-empty tier of the list. -/
theorem tryTiers_spec {db : DB} {choice : List Nat → Nat}
    (hchoice : ∀ l : List Nat, l ≠ [] → choice l ∈ l)
    (hnodup : (db.questions.map Question.id).Nodup)
    (ch : Nat) (excl : List Nat) :
    ∀ (ds : List String),
      (tryTiers db choice ch excl ds = none →
        ∀ d ∈ ds, unused_questions_for db ch d excl = []) ∧
      (∀ q, tryTiers db choice ch excl ds = some q →
        ∃ pre d post, ds = pre ++ d :: post ∧
          (∀ d' ∈ pre, unused_questions_for db ch d' excl = []) ∧
          q ∈ unused_questions_for db ch d excl)
  | [] => by
      constructor
      · intro _ d hd; simp at hd
      · intro q hq; simp [tryTiers] at hq
  | d :: rest => by
      obtain ⟨ihnone, ihsome⟩ := tryTiers_spec hchoice hnodup ch excl rest
      by_cases hd : unused_questions_for db ch d excl = []
      · have hstep : tryTiers db choice ch excl (d :: rest) =
            tryTiers db choice ch excl rest := by
          simp [tryTiers, hd]
        constructor
        · intro hnone d' hd'
          rcases List.mem_cons.mp hd' with h | h
          · exact h ▸ hd
          · exact ihnone (hstep ▸ hnone) d' h
        · intro q hq
          obtain ⟨pre, d0, post, hds, hpre, hmem⟩ := ihsome q (hstep ▸ hq)
          exact ⟨d :: pre, d0, post, by simp [hds], by
            intro d' hd'
            rcases List.mem_cons.mp hd' with h | h
            · exact h ▸ hd
            · exact hpre d' h, hmem⟩
      · have hne : (unused_questions_for db ch d excl).map Question.id ≠ [] := by
          simpa using hd
        obtain ⟨q0, hq0, hq0get⟩ := getQuestion_choice_mem hchoice hnodup
          (fun x hx => unused_questions_for_subset hx) hd
        have hstep : tryTiers db choice ch excl (d :: rest) =
            getQuestion db (choice ((unused_questions_for db ch d excl).map Question.id)) := by
          simp [tryTiers, List.isEmpty_iff, hne]
        constructor
        · intro hnone
          rw [hstep, hq0get] at hnone
          exact absurd hnone (by simp)
        · intro q hq
          rw [hstep, hq0get] at hq
          exact ⟨[], d, rest, rfl, by simp, Option.some.inj hq ▸ hq0⟩

/-- Membership in the any-difficulty fallback pool, unfolded. -/
theorem mem_chapter_pool {db : DB} {ch : Nat} {excl : List Nat} {q : Question} :
    q ∈ chapter_pool db ch excl ↔
      q ∈ db.questions ∧ q.chapter = ch ∧ q.is_active = true ∧ q.id ∉ excl := by
  simp [chapter_pool, List.mem_filter, and_assoc]

/-- Every difficulty tier is contained in the fallback pool. -/
theorem unused_subset_pool {db : DB} {ch : Nat} {d : String} {excl : List Nat}
    {q : Question} (h : q ∈ unused_questions_for db ch d excl) :
    q ∈ chapter_pool db ch excl := by
  obtain ⟨h1, h2, _, h4, h5⟩ := mem_unused_questions_for.mp h
  exact mem_chapter_pool.mpr ⟨h1, h2, h4, h5⟩

/-- Case analysis of `select_next_question` for an attempt with a quiz:
`none` only with an empty fallback pool, and a returned question comes
from the target tier, from the first non-empty adjacent tier after an
empty target tier, or from the fallback pool after all named tiers are
empty. -/
theorem select_next_question_cases (db : DB) (choice : List Nat → Nat)
    (attempt : QuizAttempt) (answered : List Nat) (quiz : Quiz)
    (hq : attempt.quiz = some quiz)
    (hchoice : ∀ l : List Nat, l ≠ [] → choice l ∈ l)
    (hnodup : (db.questions.map Question.id).Nodup) :
    (select_next_question db choice attempt answered = none →
       chapter_pool db quiz.chapter answered = []) ∧
    (∀ q, select_next_question db choice attempt answered = some q →
       q ∈ unused_questions_for db quiz.chapter (targetDifficulty attempt) answered ∨
       (unused_questions_for db quiz.chapter (targetDifficulty attempt) answered = [] ∧
         ∃ pre d post,
           adjacentDifficulties (targetDifficulty attempt) = pre ++ d :: post ∧
           (∀ d' ∈ pre, unused_questions_for db quiz.chapter d' answered = []) ∧
           q ∈ unused_questions_for db quiz.chapter d answered) ∨
       (unused_questions_for db quiz.chapter (targetDifficulty attempt) answered = [] ∧
         (∀ d ∈ adjacentDifficulties (targetDifficulty attempt),
            unused_questions_for db quiz.chapter d answered = []) ∧
         q ∈ chapter_pool db quiz.chapter answered)) := by
  rcases h1 : tryTiers db choice quiz.chapter answered [targetDifficulty attempt]
    with _ | q1
  · have hT : unused_questions_for db quiz.chapter (targetDifficulty attempt) answered = [] :=
      (tryTiers_spec hchoice hnodup _ _ _).1 h1 _ (by simp)
    rcases h2 : tryTiers db choice quiz.chapter answered
        (adjacentDifficulties (targetDifficulty attempt)) with _ | q2
    · have hA := (tryTiers_spec hchoice hnodup _ _ _).1 h2
      have hsel : select_next_question db choice attempt answered =
          (if ((chapter_pool db quiz.chapter answered).map Question.id).isEmpty then none
           else getQuestion db
             (choice ((chapter_pool db quiz.chapter answered).map Question.id))) := by
        simp only [select_next_question, hq, h1, h2]
      by_cases hfb : chapter_pool db quiz.chapter answered = []
      · constructor
        · intro _; exact hfb
        · intro q hsq
          rw [hsel, hfb] at hsq
          simp at hsq
      · have hne : ((chapter_pool db quiz.chapter answered).map Question.id).isEmpty = false := by
          simp [List.isEmpty_iff, hfb]
        constructor
        · intro hnone
          rw [hsel, hne] at hnone
          obtain ⟨q0, _, hq0get⟩ := getQuestion_choice_mem hchoice hnodup
            (fun x hx => (mem_chapter_pool.mp hx).1) hfb
          simp only [Bool.false_eq_true, if_false] at hnone
          rw [hq0get] at hnone
          exact absurd hnone (by simp)
        · intro q hsq
          rw [hsel, hne] at hsq
          simp only [Bool.false_eq_true, if_false] at hsq
          have hmem := getQuestion_eq_some_mem hchoice hnodup
            (fun x hx => (mem_chapter_pool.mp hx).1) hfb hsq
          exact Or.inr (Or.inr ⟨hT, hA, hmem⟩)
    · have hsel : select_next_question db choice attempt answered = some q2 := by
        simp only [select_next_question, hq, h1, h2]
      constructor
      · intro hnone; rw [hsel] at hnone; exact absurd hnone (by simp)
      · intro q hsq
        rw [hsel] at hsq
        obtain ⟨pre, d, post, hds, hpre, hmem⟩ :=
          (tryTiers_spec hchoice hnodup _ _ _).2 q2 h2
        exact Or.inr (Or.inl ⟨hT, pre, d, post, hds, hpre,
          Option.some.inj hsq ▸ hmem⟩)
  · have hsel : select_next_question db choice attempt answered = some q1 := by
      simp only [select_next_question, hq, h1]
    constructor
    · intro hnone; rw [hsel] at hnone; exact absurd hnone (by simp)
    · intro q hsq
      rw [hsel] at hsq
      obtain ⟨pre, d, post, hds, _, hmem⟩ :=
        (tryTiers_spec hchoice hnodup _ _ _).2 q1 h1
      have hd : d = targetDifficulty attempt := by
        rcases pre with _ | ⟨p, pre⟩
        · exact (show d = targetDifficulty attempt ∧ post = [] by
            simpa using hds.symm).1
        · have hlen := congrArg List.length hds
          simp [List.length_append] at hlen
      exact Or.inl (hd ▸ (Option.some.inj hsq ▸ hmem))

/-- The head choice obeys the `random.choice` membership contract. -/
theorem headChoice_mem : ∀ l : List Nat, l ≠ [] → headChoice l ∈ l := by
  intro l hl
  cases l with
  | nil => exact absurd rfl hl
  | cons a t => simp [headChoice]

/-- A two-element list decomposes around a middle element in exactly
two ways. -/
theorem pair_decomp {d1 d2 d : String} {pre post : List String}
    (h : [d1, d2] = pre ++ d :: post) :
    (pre = [] ∧ d = d1) ∨ (pre = [d1] ∧ d = d2) := by
  rcases pre with _ | ⟨a, pre⟩
  · simp_all
  · rcases pre with _ | ⟨b, pre⟩
    · simp_all
    · have hlen := congrArg List.length h
      simp [List.length_append] at hlen

/-- A one-element list decomposes around a middle element in exactly
one way. -/
theorem singleton_decomp {d1 d : String} {pre post : List String}
    (h : [d1] = pre ++ d :: post) : pre = [] ∧ d = d1 := by
  rcases pre with _ | ⟨a, pre⟩
  · simp_all
  · have hlen := congrArg List.length h
    simp [List.length_append] at hlen

/--
**C4.** For every attempt with a quiz: when the target-difficulty tier
is non-empty, `select_next_question` returns a question of exactly the
target difficulty; when it is empty, the result comes from the first
non-empty adjacent tier, the one-step-down tier being checked before
the one-step-up tier (the `adjacents` list orders down before up);
only when the target and both adjacent tiers are empty may a question
of any remaining difficulty (the chapter pool) be returned.
-/
theorem select_next_question_tier_priority (db : DB) (choice : List Nat → Nat)
    (attempt : QuizAttempt) (answered : List Nat) (quiz : Quiz)
    (hq : attempt.quiz = some quiz)
    (hchoice : ∀ l : List Nat, l ≠ [] → choice l ∈ l)
    (hnodup : (db.questions.map Question.id).Nodup) :
    (adjacentDifficulties Difficulty.EASY = [Difficulty.MEDIUM] ∧
     adjacentDifficulties Difficulty.MEDIUM = [Difficulty.EASY, Difficulty.HARD] ∧
     adjacentDifficulties Difficulty.HARD = [Difficulty.MEDIUM]) ∧
    (∀ q, select_next_question db choice attempt answered = some q →
      (unused_questions_for db quiz.chapter (targetDifficulty attempt) answered ≠ [] →
        q.difficulty = targetDifficulty attempt) ∧
      (∀ dn up, adjacentDifficulties (targetDifficulty attempt) = [dn, up] →
        unused_questions_for db quiz.chapter (targetDifficulty attempt) answered = [] →
        (unused_questions_for db quiz.chapter dn answered ≠ [] → q.difficulty = dn) ∧
        (unused_questions_for db quiz.chapter dn answered = [] →
         unused_questions_for db quiz.chapter up answered ≠ [] → q.difficulty = up)) ∧
      (∀ dn, adjacentDifficulties (targetDifficulty attempt) = [dn] →
        unused_questions_for db quiz.chapter (targetDifficulty attempt) answered = [] →
        unused_questions_for db quiz.chapter dn answered ≠ [] → q.difficulty = dn) ∧
      (unused_questions_for db quiz.chapter (targetDifficulty attempt) answered = [] →
       (∀ d ∈ adjacentDifficulties (targetDifficulty attempt),
          unused_questions_for db quiz.chapter d answered = []) →
       q ∈ chapter_pool db quiz.chapter answered)) := by
  refine ⟨⟨by decide, by decide, by decide⟩, ?_⟩
  intro q hsq
  have tri := (select_next_question_cases db choice attempt answered quiz
    hq hchoice hnodup).2 q hsq
  refine ⟨?_, ?_, ?_, ?_⟩
  · intro hT
    rcases tri with h | ⟨hT0, _⟩ | ⟨hT0, _, _⟩
    · exact (mem_unused_questions_for.mp h).2.2.1
    · exact absurd hT0 hT
    · exact absurd hT0 hT
  · intro dn up hadj hT
    rcases tri with h | ⟨_, pre, d, post, hds, hpre, hmem⟩ | ⟨_, hAdj, _⟩
    · rw [hT] at h; simp at h
    · rw [hadj] at hds
      rcases pair_decomp hds with ⟨hpre0, hd⟩ | ⟨hpre1, hd⟩
      · subst hd
        constructor
        · intro _; exact (mem_unused_questions_for.mp hmem).2.2.1
        · intro hdn _; rw [hdn] at hmem; simp at hmem
      · subst hd
        have hdnEmpty : unused_questions_for db quiz.chapter dn answered = [] :=
          hpre dn (by simp [hpre1])
        constructor
        · intro hdn; exact absurd hdnEmpty hdn
        · intro _ _; exact (mem_unused_questions_for.mp hmem).2.2.1
    · constructor
      · intro hdn
        exact absurd (hAdj dn (by simp [hadj])) hdn
      · intro _ hup
        exact absurd (hAdj up (by simp [hadj])) hup
  · intro dn hadj hT
    rcases tri with h | ⟨_, pre, d, post, hds, hpre, hmem⟩ | ⟨_, hAdj, _⟩
    · rw [hT] at h; simp at h
    · rw [hadj] at hds
      obtain ⟨hpre0, hd⟩ := singleton_decomp hds
      subst hd
      intro _
      exact (mem_unused_questions_for.mp hmem).2.2.1
    · intro hdn
      exact absurd (hAdj dn (by simp [hadj])) hdn
  · intro hT hAdj
    rcases tri with h | ⟨_, pre, d, post, hds, hpre, hmem⟩ | ⟨_, _, hpool⟩
    · rw [hT] at h; simp at h
    · have hdmem : d ∈ adjacentDifficulties (targetDifficulty attempt) := by
        rw [hds]; simp
      rw [hAdj d hdmem] at hmem; simp at hmem
    · exact hpool

/-- **C4 witness.** The tier-priority theorem applied to the sample
database (hypotheses discharged at a concrete input). -/
theorem select_next_question_tier_priority_witness :
    (sampleAttempt.quiz = some sampleQuiz ∧
     (∀ l : List Nat, l ≠ [] → headChoice l ∈ l) ∧
     (sampleDB.questions.map Question.id).Nodup) ∧
    ((adjacentDifficulties Difficulty.EASY = [Difficulty.MEDIUM] ∧
      adjacentDifficulties Difficulty.MEDIUM = [Difficulty.EASY, Difficulty.HARD] ∧
      adjacentDifficulties Difficulty.HARD = [Difficulty.MEDIUM]) ∧
     (∀ q, select_next_question sampleDB headChoice sampleAttempt [] = some q →
       (unused_questions_for sampleDB sampleQuiz.chapter
           (targetDifficulty sampleAttempt) [] ≠ [] →
         q.difficulty = targetDifficulty sampleAttempt) ∧
       (∀ dn up, adjacentDifficulties (targetDifficulty sampleAttempt) = [dn, up] →
         unused_questions_for sampleDB sampleQuiz.chapter
           (targetDifficulty sampleAttempt) [] = [] →
         (unused_questions_for sampleDB sampleQuiz.chapter dn [] ≠ [] →
           q.difficulty = dn) ∧
         (unused_questions_for sampleDB sampleQuiz.chapter dn [] = [] →
          unused_questions_for sampleDB sampleQuiz.chapter up [] ≠ [] →
           q.difficulty = up)) ∧
       (∀ dn, adjacentDifficulties (targetDifficulty sampleAttempt) = [dn] →
         unused_questions_for sampleDB sampleQuiz.chapter
           (targetDifficulty sampleAttempt) [] = [] →
         unused_questions_for sampleDB sampleQuiz.chapter dn [] ≠ [] →
           q.difficulty = dn) ∧
       (unused_questions_for sampleDB sampleQuiz.chapter
           (targetDifficulty sampleAttempt) [] = [] →
        (∀ d ∈ adjacentDifficulties (targetDifficulty sampleAttempt),
           unused_questions_for sampleDB sampleQuiz.chapter d [] = []) →
        q ∈ chapter_pool sampleDB sampleQuiz.chapter []))) :=
  ⟨⟨by decide, headChoice_mem, by decide⟩,
    select_next_question_tier_priority sampleDB headChoice sampleAttempt [] sampleQuiz
      (by decide) headChoice_mem (by decide)⟩

/--
**C5.** Every question returned by `select_next_question` is active and
not among the answered question ids, and inactive questions are
excluded from every tier, the any-difficulty fallback pool included.
-/
theorem select_next_question_active_unanswered (db : DB) (choice : List Nat → Nat)
    (attempt : QuizAttempt) (answered : List Nat)
    (hchoice : ∀ l : List Nat, l ≠ [] → choice l ∈ l)
    (hnodup : (db.questions.map Question.id).Nodup) :
    (∀ ch d excl q, q ∈ unused_questions_for db ch d excl →
      q.is_active = true ∧ q.id ∉ excl) ∧
    (∀ ch excl q, q ∈ chapter_pool db ch excl →
      q.is_active = true ∧ q.id ∉ excl) ∧
    (∀ q, select_next_question db choice attempt answered = some q →
      q.is_active = true ∧ q.id ∉ answered) := by
  refine ⟨fun ch d excl q h =>
      ⟨(mem_unused_questions_for.mp h).2.2.2.1, (mem_unused_questions_for.mp h).2.2.2.2⟩,
    fun ch excl q h =>
      ⟨(mem_chapter_pool.mp h).2.2.1, (mem_chapter_pool.mp h).2.2.2⟩, ?_⟩
  intro q hsq
  rcases hqz : attempt.quiz with _ | quiz
  · simp [select_next_question, hqz] at hsq
  · have tri := (select_next_question_cases db choice attempt answered quiz
      hqz hchoice hnodup).2 q hsq
    rcases tri with h | ⟨_, pre, d, post, _, _, h⟩ | ⟨_, _, h⟩
    · exact ⟨(mem_unused_questions_for.mp h).2.2.2.1,
        (mem_unused_questions_for.mp h).2.2.2.2⟩
    · exact ⟨(mem_unused_questions_for.mp h).2.2.2.1,
        (mem_unused_questions_for.mp h).2.2.2.2⟩
    · exact ⟨(mem_chapter_pool.mp h).2.2.1, (mem_chapter_pool.mp h).2.2.2⟩

/-- **C5 witness.** The theorem applied to the sample database with the
already-answered list `[2]`. -/
theorem select_next_question_active_unanswered_witness :
    ((∀ l : List Nat, l ≠ [] → headChoice l ∈ l) ∧
     (sampleDB.questions.map Question.id).Nodup) ∧
    ((∀ ch d excl q, q ∈ unused_questions_for sampleDB ch d excl →
       q.is_active = true ∧ q.id ∉ excl) ∧
     (∀ ch excl q, q ∈ chapter_pool sampleDB ch excl →
       q.is_active = true ∧ q.id ∉ excl) ∧
     (∀ q, select_next_question sampleDB headChoice sampleAttempt [2] = some q →
       q.is_active = true ∧ q.id ∉ [2])) :=
  ⟨⟨headChoice_mem, by decide⟩,
    select_next_question_active_unanswered sampleDB headChoice sampleAttempt [2]
      headChoice_mem (by decide)⟩

/--
**C6.** For an attempt with a quiz, `select_next_question` returns
`none` exactly when no active, unanswered question exists anywhere in
the chapter (the fallback pool is empty); for an attempt with no quiz
it returns `none` immediately.
-/
theorem select_next_question_none_iff (db : DB) (choice : List Nat → Nat)
    (answered : List Nat)
    (hchoice : ∀ l : List Nat, l ≠ [] → choice l ∈ l)
    (hnodup : (db.questions.map Question.id).Nodup) :
    (∀ attempt quiz, attempt.quiz = some quiz →
      (select_next_question db choice attempt answered = none ↔
        chapter_pool db quiz.chapter answered = [])) ∧
    (∀ attempt, attempt.quiz = none →
      select_next_question db choice attempt answered = none) := by
  constructor
  · intro attempt quiz hq
    constructor
    · exact (select_next_question_cases db choice attempt answered quiz
        hq hchoice hnodup).1
    · intro hpool
      have hempty : ∀ d, unused_questions_for db quiz.chapter d answered = [] := by
        intro d
        rw [List.eq_nil_iff_forall_not_mem]
        intro x hx
        have hxpool := unused_subset_pool hx
        rw [hpool] at hxpool
        simp at hxpool
      have h1 := tryTiers_of_all_empty db choice quiz.chapter answered
        [targetDifficulty attempt] (fun d _ => hempty d)
      have h2 := tryTiers_of_all_empty db choice quiz.chapter answered
        (adjacentDifficulties (targetDifficulty attempt)) (fun d _ => hempty d)
      simp [select_next_question, hq, h1, h2, hpool]
  · intro attempt h
    simp [select_next_question, h]

/-- **C6 witness.** The theorem applied to the sample database. -/
theorem select_next_question_none_iff_witness :
    ((∀ l : List Nat, l ≠ [] → headChoice l ∈ l) ∧
     (sampleDB.questions.map Question.id).Nodup) ∧
    ((∀ attempt quiz, attempt.quiz = some quiz →
       (select_next_question sampleDB headChoice attempt [1, 2, 3] = none ↔
         chapter_pool sampleDB quiz.chapter [1, 2, 3] = [])) ∧
     (∀ attempt, attempt.quiz = none →
       select_next_question sampleDB headChoice attempt [1, 2, 3] = none)) :=
  ⟨⟨headChoice_mem, by decide⟩,
    select_next_question_none_iff sampleDB headChoice [1, 2, 3]
      headChoice_mem (by decide)⟩

/-- `attempt.save(...)` does not touch the answers table. -/
theorem setAttempt_answers (db : DB) (a : QuizAttempt) :
    (setAttempt db a).answers = db.answers := rfl

/-- `attempt.save(...)` does not touch the questions table. -/
theorem setAttempt_questions (db : DB) (a : QuizAttempt) :
    (setAttempt db a).questions = db.questions := rfl

/-- After `attempt.save(...)`, every row carrying the saved primary key
is the saved row. -/
theorem mem_setAttempt_self {db : DB} {a x : QuizAttempt}
    (hx : x ∈ (setAttempt db a).attempts) (hid : x.id = a.id) : x = a := by
  simp only [setAttempt, List.mem_map] at hx
  obtain ⟨y, _, rfl⟩ := hx
  by_cases h : y.id = a.id
  · simp [h]
  · rw [if_neg (by simpa using h)] at hid ⊢
    exact absurd hid h

/-- Creating one answer row bumps the row count of its attempt by one
and leaves other attempts' counts unchanged. -/
theorem answerCount_addAnswer (db : DB) (row : AttemptAnswer) (i : Nat) :
    answerCount (addAnswer db row) i =
      answerCount db i + (if row.attempt = i then 1 else 0) := by
  by_cases h : row.attempt = i <;>
    simp [answerCount, addAnswer, List.filter_append, h]

/-- Every error path of `submit_answer` leaves the database untouched. -/
theorem submit_answer_error_db (db : DB) (choice : List Nat → Nat) (now : Nat)
    (attempt : QuizAttempt) (qid : Nat) (sel : Int) (out : SubmitOutcome) (db' : DB)
    (h : submit_answer db choice now attempt qid sel = (out, db'))
    (herr : out.isError = true) : db' = db := by
  simp only [submit_answer] at h
  split at h
  · exact (Prod.mk.injEq _ _ _ _ ▸ h).2.symm
  · split at h
    · exact (Prod.mk.injEq _ _ _ _ ▸ h).2.symm
    · split at h
      · exact (Prod.mk.injEq _ _ _ _ ▸ h).2.symm
      · split at h
        · exact (Prod.mk.injEq _ _ _ _ ▸ h).2.symm
        · split at h
          · exact (Prod.mk.injEq _ _ _ _ ▸ h).2.symm
          · split at h
            · obtain ⟨hout, _⟩ := Prod.mk.injEq _ _ _ _ ▸ h
              rw [← hout] at herr
              simp [SubmitOutcome.isError] at herr
            · split at h
              · obtain ⟨hout, _⟩ := Prod.mk.injEq _ _ _ _ ▸ h
                rw [← hout] at herr
                simp [SubmitOutcome.isError] at herr
              · obtain ⟨hout, _⟩ := Prod.mk.injEq _ _ _ _ ▸ h
                rw [← hout] at herr
                simp [SubmitOutcome.isError] at herr

/-- Inversion of the success paths of `submit_answer`: the guards
passed, an answer row was appended, the attempt row was rewritten with
bumped counters and adapted difficulty, and the outcome matches the
completion test and the re-selection result. -/
theorem submit_answer_success_inv (db : DB) (choice : List Nat → Nat) (now : Nat)
    (attempt : QuizAttempt) (qid : Nat) (sel : Int) (out : SubmitOutcome) (db' : DB)
    (h : submit_answer db choice now attempt qid sel = (out, db'))
    (hsucc : out.isError = false) :
    ∃ quiz question,
      attempt.status = AttemptStatus.IN_PROGRESS ∧
      attempt.quiz = some quiz ∧
      db.questions.find? (fun q =>
        q.id == qid && q.chapter == quiz.chapter && q.is_active) = some question ∧
      question.id = qid ∧
      (let is_correct := sel == question.correct_index
       let db1 := addAnswer db (createAnswer attempt question sel)
       let attempt1 := bumpAttempt attempt is_correct
       if quiz.num_questions ≤ attempt1.num_answered then
         out = .completed is_correct ∧
         db' = setAttempt db1 (completeAttempt attempt1 now)
       else
         let db2 := setAttempt db1 attempt1
         match select_next_question db2 choice attempt1 (answeredIds db2 attempt.id) with
         | none =>
           out = .completed is_correct ∧
           db' = setAttempt db2 (completeAttempt attempt1 now)
         | some nq =>
           out = .next is_correct nq ∧
           db' = setAttempt db2 { attempt1 with current_question := some nq.id }) := by
  simp only [submit_answer] at h
  split at h
  · obtain ⟨hout, _⟩ := Prod.mk.injEq _ _ _ _ ▸ h
    rw [← hout] at hsucc
    simp [SubmitOutcome.isError] at hsucc
  next hst =>
    split at h
    · obtain ⟨hout, _⟩ := Prod.mk.injEq _ _ _ _ ▸ h
      rw [← hout] at hsucc
      simp [SubmitOutcome.isError] at hsucc
    next quiz hquiz =>
      split at h
      · obtain ⟨hout, _⟩ := Prod.mk.injEq _ _ _ _ ▸ h
        rw [← hout] at hsucc
        simp [SubmitOutcome.isError] at hsucc
      next question hfind =>
        have hqid : question.id = qid := by
          have := List.find?_some hfind
          simp at this
          exact this.1.1
        refine ⟨quiz, question, by simpa using hst, hquiz, hfind, hqid, ?_⟩
        split at h
        · obtain ⟨hout, _⟩ := Prod.mk.injEq _ _ _ _ ▸ h
          rw [← hout] at hsucc
          simp [SubmitOutcome.isError] at hsucc
        split at h
        · obtain ⟨hout, _⟩ := Prod.mk.injEq _ _ _ _ ▸ h
          rw [← hout] at hsucc
          simp [SubmitOutcome.isError] at hsucc
        split at h
        next hthr =>
          obtain ⟨hout, hdb⟩ := Prod.mk.injEq _ _ _ _ ▸ h
          simp only [if_pos hthr]
          exact ⟨hout.symm, hdb.symm⟩
        next hthr =>
          simp only [if_neg hthr]
          split at h
          next hsel =>
            obtain ⟨hout, hdb⟩ := Prod.mk.injEq _ _ _ _ ▸ h
            exact ⟨hout.symm, hdb.symm⟩
          next nq hsel =>
            obtain ⟨hout, hdb⟩ := Prod.mk.injEq _ _ _ _ ▸ h
            exact ⟨hout.symm, hdb.symm⟩

/--
**C10.** If the question assigned as an IN_PROGRESS attempt's
`current_question` is soft-deleted (`QuestionDetailView.destroy` sets
`is_active = False`), a subsequent `submit_answer` for that question
fails with "question not found" (QuestionNotFound, 400) — not with
"question is not current" — and the database, hence the attempt row
and its counters, difficulty, status and answer rows, is left
completely unchanged.
-/
theorem submit_answer_soft_deleted_current (db : DB) (choice : List Nat → Nat)
    (now : Nat) (attempt : QuizAttempt) (cqid : Nat) (sel : Int) (quiz : Quiz)
    (hstatus : attempt.status = AttemptStatus.IN_PROGRESS)
    (hquiz : attempt.quiz = some quiz)
    (_hcq : attempt.current_question = some cqid) :
    submit_answer (question_destroy db cqid) choice now attempt cqid sel =
      (.error "question not found" 400, question_destroy db cqid) := by
  have hfind : ((question_destroy db cqid).questions.find? (fun q =>
      q.id == cqid && q.chapter == quiz.chapter && q.is_active)) = none := by
    rw [List.find?_eq_none]
    intro x hx
    simp only [question_destroy, List.mem_map] at hx
    obtain ⟨q0, _, rfl⟩ := hx
    by_cases h : q0.id = cqid
    · simp [h]
    · simp [h]
  simp [submit_answer, hstatus, hquiz, hfind]

/-- **C10 witness.** Soft-deleting the sample attempt's current
question (id 1) and resubmitting it. -/
theorem submit_answer_soft_deleted_current_witness :
    (sampleAttempt.status = AttemptStatus.IN_PROGRESS ∧
     sampleAttempt.quiz = some sampleQuiz ∧
     sampleAttempt.current_question = some 1) ∧
    submit_answer (question_destroy sampleDB 1) headChoice 42 sampleAttempt 1 1 =
      (.error "question not found" 400, question_destroy sampleDB 1) :=
  ⟨⟨by decide, by decide, by decide⟩,
    submit_answer_soft_deleted_current sampleDB headChoice 42 sampleAttempt 1 1
      sampleQuiz (by decide) (by decide) (by decide)⟩

/-- `attempt.save(...)` does not change any answer count. -/
theorem answerCount_setAttempt (db : DB) (a : QuizAttempt) (i : Nat) :
    answerCount (setAttempt db a) i = answerCount db i := rfl

/-- An attempt with no matching answer rows has count zero. -/
theorem answerCount_eq_zero {db : DB} {i : Nat}
    (h : ∀ r ∈ db.answers, r.attempt ≠ i) : answerCount db i = 0 := by
  simp only [answerCount, List.length_eq_zero, List.filter_eq_nil_iff]
  intro r hr
  simpa using h r hr

/--
**C1 (amended).** After `start_attempt`, in every committed state the
created attempt has `num_answered = 0`, equal to its AttemptAnswer row
count and at most `quiz.num_questions`.  After a `submit_answer` call:
an error outcome leaves the database unchanged, and a success outcome
rewrites the attempt row so that `num_answered` again equals the row
count; the bound `num_answered ≤ quiz.num_questions` is preserved from
the invariant that an IN_PROGRESS attempt has `num_answered <
quiz.num_questions` — which requires `quiz.num_questions ≥ 1` and is
exactly what fails for a quiz with `num_questions = 0` (see the
counterexample).
-/
theorem attempt_counters_spec :
    (∀ (db : DB) (choice : List Nat → Nat) (now newId student : Nat) (quiz : Quiz),
      (∀ a ∈ db.attempts, a.id ≠ newId) →
      (∀ r ∈ db.answers, r.attempt ≠ newId) →
      ∀ s ∈ (start_attempt db choice now newId student quiz).2,
        ∀ a ∈ s.attempts, a.id = newId →
          a.num_answered = answerCount s a.id ∧
          a.num_answered ≤ quiz.num_questions) ∧
    (∀ (db : DB) (choice : List Nat → Nat) (now : Nat) (attempt : QuizAttempt)
        (qid : Nat) (sel : Int) (quiz : Quiz),
      attempt.quiz = some quiz →
      countersInv db attempt →
      ((submit_answer db choice now attempt qid sel).1.isError = true ∧
        (submit_answer db choice now attempt qid sel).2 = db) ∨
      ((submit_answer db choice now attempt qid sel).1.isError = false ∧
        ∀ a' ∈ (submit_answer db choice now attempt qid sel).2.attempts,
          a'.id = attempt.id →
            a'.num_answered =
              answerCount (submit_answer db choice now attempt qid sel).2 a'.id ∧
            a'.num_answered ≤ quiz.num_questions ∧
            countersInv (submit_answer db choice now attempt qid sel).2 a')) := by
  constructor
  · intro db choice now newId student quiz hfreshA hfreshR s hs a ha haid
    unfold start_attempt at hs
    split at hs
    · simp only [List.mem_singleton] at hs
      subst hs
      exact absurd haid (hfreshA a ha)
    · have hcount0 : answerCount db newId = 0 :=
        answerCount_eq_zero (by intro r hr; exact hfreshR r hr)
      simp only [] at hs
      split at hs
      all_goals
        simp only [List.mem_cons, List.mem_singleton, List.not_mem_nil, or_false] at hs
      all_goals
        rcases hs with hs | hs | hs
      all_goals subst hs
      · exact absurd haid (hfreshA a ha)
      · rcases List.mem_append.mp ha with h | h
        · exact absurd haid (hfreshA a h)
        · have : a = startAttemptRow newId student quiz := by simpa using h
          subst this
          exact ⟨hcount0.symm, by simp [startAttemptRow]⟩
      · have : a = { startAttemptRow newId student quiz with
            status := AttemptStatus.COMPLETED, ended_at := some now } :=
          mem_setAttempt_self ha haid
        subst this
        exact ⟨hcount0.symm, by simp [startAttemptRow]⟩
      · exact absurd haid (hfreshA a ha)
      · rcases List.mem_append.mp ha with h | h
        · exact absurd haid (hfreshA a h)
        · have : a = startAttemptRow newId student quiz := by simpa using h
          subst this
          exact ⟨hcount0.symm, by simp [startAttemptRow]⟩
      · next q _ =>
          have : a = { startAttemptRow newId student quiz with
              current_question := some q.id } :=
            mem_setAttempt_self ha haid
          subst this
          exact ⟨hcount0.symm, by simp [startAttemptRow]⟩
  · intro db choice now attempt qid sel quiz hquiz hInv
    rcases hrun : submit_answer db choice now attempt qid sel with ⟨out, db2⟩
    by_cases herr : out.isError
    · left
      exact ⟨herr, submit_answer_error_db db choice now attempt qid sel out db2 hrun herr⟩
    · right
      refine ⟨by simpa using herr, ?_⟩
      obtain ⟨quiz0, question, hst, hq0, hfind, hqid, hrest⟩ :=
        submit_answer_success_inv db choice now attempt qid sel out db2 hrun
          (by simpa using herr)
      have hqeq : quiz0 = quiz := by
        rw [hquiz] at hq0
        exact (Option.some.inj hq0).symm
      rw [hqeq] at hrest
      have hcnt : attempt.num_answered = answerCount db attempt.id := hInv.1
      have hbounds := hInv.2
      rw [hquiz] at hbounds
      have hlt' : attempt.num_answered < quiz.num_questions := hbounds.1 hst
      intro a' ha' haid
      simp only [] at hrest
      split at hrest
      · obtain ⟨_, hdb⟩ := hrest
        subst hdb
        have ha'eq : a' = completeAttempt (bumpAttempt attempt
            (sel == question.correct_index)) now :=
          mem_setAttempt_self ha' (by simpa [completeAttempt, bumpAttempt] using haid)
        subst ha'eq
        constructor
        · simp [completeAttempt, bumpAttempt, answerCount_setAttempt,
            answerCount_addAnswer, createAnswer, hcnt]
        constructor
        · simpa [completeAttempt, bumpAttempt] using hlt'
        constructor
        · simp [completeAttempt, bumpAttempt, answerCount_setAttempt,
            answerCount_addAnswer, createAnswer, hcnt]
        · simp only [completeAttempt, bumpAttempt, hquiz]
          exact ⟨by intro hfalse; exact absurd hfalse (by decide), by omega⟩
      next hthr =>
        have hthr' : attempt.num_answered + 1 < quiz.num_questions := by
          simp only [bumpAttempt] at hthr
          omega
        split at hrest
        · obtain ⟨_, hdb⟩ := hrest
          subst hdb
          have ha'eq : a' = completeAttempt (bumpAttempt attempt
              (sel == question.correct_index)) now :=
            mem_setAttempt_self ha' (by simpa [completeAttempt, bumpAttempt] using haid)
          subst ha'eq
          constructor
          · simp [completeAttempt, bumpAttempt, answerCount_setAttempt,
              answerCount_addAnswer, createAnswer, hcnt]
          constructor
          · simpa [completeAttempt, bumpAttempt] using hlt'
          constructor
          · simp [completeAttempt, bumpAttempt, answerCount_setAttempt,
              answerCount_addAnswer, createAnswer, hcnt]
          · simp only [completeAttempt, bumpAttempt, hquiz]
            exact ⟨by intro hfalse; exact absurd hfalse (by decide), by omega⟩
        · next nq _ =>
            obtain ⟨_, hdb⟩ := hrest
            subst hdb
            have ha'eq : a' = { bumpAttempt attempt (sel == question.correct_index) with
                current_question := some nq.id } :=
              mem_setAttempt_self ha' (by simpa [bumpAttempt] using haid)
            subst ha'eq
            constructor
            · simp [bumpAttempt, answerCount_setAttempt,
                answerCount_addAnswer, createAnswer, hcnt]
            constructor
            · simpa [bumpAttempt] using hlt'
            constructor
            · simp [bumpAttempt, answerCount_setAttempt,
                answerCount_addAnswer, createAnswer, hcnt]
            · simp only [bumpAttempt, hquiz]
              exact ⟨by intro _; omega, by omega⟩




/-- **C1 counterexample.** A quiz with `num_questions = 0`: starting an
attempt on a one-question chapter leaves the attempt IN_PROGRESS with a
current question, and the first submitted answer drives `num_answered`
to `1 > 0 = quiz.num_questions` — the bound of the claim fails — while
`num_answered` still equals the AttemptAnswer row count. -/
theorem num_questions_zero_counterexample :
    (let quizZ : Quiz := { id := 7, chapter := 1, num_questions := 0, is_published := true }
     let db0 : DB := { questions := [sampleQ1], attempts := [], answers := [] }
     let run := start_attempt db0 headChoice 50 5 9 quizZ
     let dbStarted := run.2.getLastD db0
     run.1 = StartOutcome.created 5 sampleQ1 ∧
     (∀ a ∈ dbStarted.attempts,
        a.status = AttemptStatus.IN_PROGRESS ∧ a.num_answered = 0 ∧
        (submit_answer dbStarted headChoice 51 a 1 1).1 = SubmitOutcome.completed true ∧
        ∀ a' ∈ (submit_answer dbStarted headChoice 51 a 1 1).2.attempts,
          a'.num_answered = 1 ∧
          a'.num_answered = answerCount (submit_answer dbStarted headChoice 51 a 1 1).2 a'.id ∧
          quizZ.num_questions < a'.num_answered)) := by
  decide

/-- **C1 witness.** The amended counters theorem applied to the sample
database, both for a fresh `start_attempt` and for a `submit_answer`. -/
theorem attempt_counters_spec_witness :
    ((∀ a ∈ sampleDB.attempts, a.id ≠ 77) ∧
     (∀ r ∈ sampleDB.answers, r.attempt ≠ 77) ∧
     sampleAttempt.quiz = some sampleQuiz ∧
     countersInv sampleDB sampleAttempt) ∧
    (∀ s ∈ (start_attempt sampleDB headChoice 50 77 10 sampleQuiz).2,
      ∀ a ∈ s.attempts, a.id = 77 →
        a.num_answered = answerCount s a.id ∧
        a.num_answered ≤ sampleQuiz.num_questions) ∧
    (((submit_answer sampleDB headChoice 60 sampleAttempt 1 1).1.isError = true ∧
       (submit_answer sampleDB headChoice 60 sampleAttempt 1 1).2 = sampleDB) ∨
     ((submit_answer sampleDB headChoice 60 sampleAttempt 1 1).1.isError = false ∧
       ∀ a' ∈ (submit_answer sampleDB headChoice 60 sampleAttempt 1 1).2.attempts,
         a'.id = sampleAttempt.id →
           a'.num_answered =
             answerCount (submit_answer sampleDB headChoice 60 sampleAttempt 1 1).2 a'.id ∧
           a'.num_answered ≤ sampleQuiz.num_questions ∧
           countersInv (submit_answer sampleDB headChoice 60 sampleAttempt 1 1).2 a')) :=
  ⟨⟨by decide, by decide, by decide, by decide⟩,
   attempt_counters_spec.1 sampleDB headChoice 50 77 10 sampleQuiz (by decide) (by decide),
   attempt_counters_spec.2 sampleDB headChoice 60 sampleAttempt 1 1 sampleQuiz
     (by decide) (by decide)⟩


/-- Creating an answer row does not touch the questions table. -/
theorem addAnswer_questions (db : DB) (row : AttemptAnswer) :
    (addAnswer db row).questions = db.questions := rfl

/--
**C2 (amended).** After a successful `submit_answer` for question `qid`
that returns a next question, the newly assigned `current_question`
differs from `qid` (the selector excludes answered questions), so a
second `submit_answer` call for the same `qid` on the re-read attempt
fails — but with "question is not current" (QuestionNotCurrent, 409),
because the current-question guard (step 3) runs before the
duplicate-answer guard (step 4) — and leaves the database, hence
`num_answered` and `num_correct`, unchanged.
-/
theorem submit_answer_resubmit_fails (db : DB) (choice : List Nat → Nat)
    (now now' : Nat) (attempt : QuizAttempt) (qid : Nat) (sel sel' : Int)
    (c : Bool) (nq : Question) (db' : DB)
    (hchoice : ∀ l : List Nat, l ≠ [] → choice l ∈ l)
    (hnodup : (db.questions.map Question.id).Nodup)
    (hrun : submit_answer db choice now attempt qid sel = (.next c nq, db')) :
    nq.id ≠ qid ∧
    ∀ a' ∈ db'.attempts, a'.id = attempt.id →
      submit_answer db' choice now' a' qid sel' =
        (.error "question is not current" 409, db') := by
  obtain ⟨quiz, question, hst, hquiz, hfind, hqid, hrest⟩ :=
    submit_answer_success_inv db choice now attempt qid sel _ db' hrun rfl
  simp only [] at hrest
  split at hrest
  · exact absurd hrest.1 (by simp)
  next hthr =>
    split at hrest
    · exact absurd hrest.1 (by simp)
    next nq0 hsel =>
      obtain ⟨hout, hdb⟩ := hrest
      injection hout with hc hnq
      subst hnq
      have hmain := select_next_question_active_unanswered
        (setAttempt (addAnswer db (createAnswer attempt question sel))
          (bumpAttempt attempt (sel == question.correct_index)))
        choice
        (bumpAttempt attempt (sel == question.correct_index))
        (answeredIds (setAttempt (addAnswer db (createAnswer attempt question sel))
          (bumpAttempt attempt (sel == question.correct_index))) attempt.id)
        hchoice hnodup
      have hnotans := (hmain.2.2 nq hsel).2
      have hqmem : qid ∈ answeredIds
          (setAttempt (addAnswer db (createAnswer attempt question sel))
            (bumpAttempt attempt (sel == question.correct_index))) attempt.id := by
        simp [answeredIds, setAttempt, addAnswer, createAnswer,
          List.filter_append, hqid]
      have hneq : nq.id ≠ qid := fun h => hnotans (h ▸ hqmem)
      refine ⟨hneq, ?_⟩
      subst hdb
      intro a' ha' haid
      have ha'eq : a' = { bumpAttempt attempt (sel == question.correct_index) with
          current_question := some nq.id } :=
        mem_setAttempt_self ha' (by simpa [bumpAttempt] using haid)
      subst ha'eq
      simp [submit_answer, hst, hquiz, setAttempt_questions,
        addAnswer_questions, hfind, bumpAttempt, hneq]

/-- **C2 counterexample.** A concrete two-step run on the sample
database: the first `submit_answer` for question 1 succeeds and moves
the attempt to question 3; the second `submit_answer` for question 1
on the still-IN_PROGRESS attempt fails with "question is not current"
(409), not with "question already answered" (DuplicateAnswer), leaving
the database unchanged. -/
theorem submit_answer_duplicate_counterexample :
    (submit_answer sampleDB headChoice 10 sampleAttempt 1 1).1 =
      SubmitOutcome.next true sampleQ3 ∧
    (∀ a ∈ (submit_answer sampleDB headChoice 10 sampleAttempt 1 1).2.attempts,
      a.status = AttemptStatus.IN_PROGRESS ∧
      submit_answer (submit_answer sampleDB headChoice 10 sampleAttempt 1 1).2
          headChoice 11 a 1 1 =
        (SubmitOutcome.error "question is not current" 409,
         (submit_answer sampleDB headChoice 10 sampleAttempt 1 1).2) ∧
      (submit_answer (submit_answer sampleDB headChoice 10 sampleAttempt 1 1).2
          headChoice 11 a 1 1).1 ≠
        SubmitOutcome.error "question already answered" 409) := by
  decide

/-- **C2 witness.** The amended resubmission theorem applied to the
sample database run. -/
theorem submit_answer_resubmit_fails_witness :
    ((∀ l : List Nat, l ≠ [] → headChoice l ∈ l) ∧
     (sampleDB.questions.map Question.id).Nodup ∧
     submit_answer sampleDB headChoice 10 sampleAttempt 1 1 =
       (.next true sampleQ3, (submit_answer sampleDB headChoice 10 sampleAttempt 1 1).2)) ∧
    (sampleQ3.id ≠ 1 ∧
     ∀ a' ∈ (submit_answer sampleDB headChoice 10 sampleAttempt 1 1).2.attempts,
       a'.id = sampleAttempt.id →
         submit_answer (submit_answer sampleDB headChoice 10 sampleAttempt 1 1).2
             headChoice 11 a' 1 1 =
           (.error "question is not current" 409,
            (submit_answer sampleDB headChoice 10 sampleAttempt 1 1).2)) :=
  ⟨⟨headChoice_mem, by decide, by decide⟩,
   submit_answer_resubmit_fails sampleDB headChoice 10 11 sampleAttempt 1 1 1
     true sampleQ3 (submit_answer sampleDB headChoice 10 sampleAttempt 1 1).2
     headChoice_mem (by decide) (by decide)⟩


/-- Saving an attempt with a fresh id into a table that was just
extended with a row of that id rewrites exactly that row. -/
theorem setAttempt_append_fresh (db : DB) (row a1 : QuizAttempt)
    (hfresh : ∀ a ∈ db.attempts, a.id ≠ row.id) (hid : a1.id = row.id) :
    (setAttempt { db with attempts := db.attempts ++ [row] } a1).attempts =
      db.attempts ++ [a1] := by
  simp only [setAttempt, List.map_append]
  congr 1
  · conv_rhs => rw [← List.map_id db.attempts]
    apply List.map_congr_left
    intro x hx
    have hne : x.id ≠ a1.id := by rw [hid]; exact hfresh x hx
    simp [hne]
  · simp [hid]

/-- Appending one attempt row that clashes with no existing IN_PROGRESS
row of its (student, quiz) pair preserves the uniqueness invariant. -/
theorem atMostOneInProgress_append (db db' : DB) (row : QuizAttempt)
    (h : db'.attempts = db.attempts ++ [row])
    (hinv : atMostOneInProgress db)
    (hno : row.status = AttemptStatus.IN_PROGRESS →
      ∀ e ∈ db.attempts, e.status = AttemptStatus.IN_PROGRESS →
        e.student = row.student → e.quiz.map Quiz.id = row.quiz.map Quiz.id → False) :
    atMostOneInProgress db' := by
  intro a1 h1 a2 h2 hs1 hs2 hstu hq
  rw [h] at h1 h2
  rcases List.mem_append.mp h1 with ha1 | ha1 <;>
    rcases List.mem_append.mp h2 with ha2 | ha2
  · exact hinv a1 ha1 a2 ha2 hs1 hs2 hstu hq
  · have ha2' : a2 = row := by simpa using ha2
    rw [ha2'] at hs2 hstu hq
    exact (hno hs2 a1 ha1 hs1 hstu hq).elim
  · have ha1' : a1 = row := by simpa using ha1
    rw [ha1'] at hs1 hstu hq
    exact (hno hs1 a2 ha2 hs2 hstu.symm hq.symm).elim
  · have ha1' : a1 = row := by simpa using ha1
    have ha2' : a2 = row := by simpa using ha2
    rw [ha1', ha2']

/-- An attempt that is IN_PROGRESS for (student, quiz) and matches the
fields of the pre-check satisfies the pre-check filter. -/
theorem inProgressFor_of_fields {e : QuizAttempt} {student quizId : Nat}
    (hs : e.status = AttemptStatus.IN_PROGRESS)
    (hstu : e.student = student)
    (hq : e.quiz.map Quiz.id = some quizId) :
    inProgressFor e student quizId = true := by
  rcases hqz : e.quiz with _ | q
  · rw [hqz] at hq; simp at hq
  · rw [hqz] at hq
    have hqid : q.id = quizId := by simpa using hq
    simp [inProgressFor, hstu, hqz, hqid, hs]

/--
**C8.** `start_attempt` answers with the conflict (AttemptAlreadyInProgress,
carrying an existing attempt's id) exactly when an IN_PROGRESS attempt
for the (student, quiz) pair already exists; otherwise it appends
exactly one new attempt row with the model defaults
(`status = IN_PROGRESS`, `current_difficulty = MEDIUM`, both counters
zero), and the at-most-one-IN_PROGRESS-per-(student, quiz) invariant
holds in every committed state.
-/
theorem start_attempt_spec (db : DB) (choice : List Nat → Nat)
    (now newId student : Nat) (quiz : Quiz)
    (hfresh : ∀ a ∈ db.attempts, a.id ≠ newId) :
    (startAttemptRow newId student quiz =
      { id := newId, student := student, quiz := some quiz,
        current_question := none, status := AttemptStatus.IN_PROGRESS,
        current_difficulty := Difficulty.MEDIUM,
        num_answered := 0, num_correct := 0, ended_at := none }) ∧
    ((start_attempt db choice now newId student quiz).1.isConflict = true ↔
      ∃ e ∈ db.attempts, inProgressFor e student quiz.id = true) ∧
    (∀ eid, (start_attempt db choice now newId student quiz).1 =
        StartOutcome.conflict (some eid) →
      ∃ e ∈ db.attempts, inProgressFor e student quiz.id = true ∧ e.id = eid) ∧
    ((¬ ∃ e ∈ db.attempts, inProgressFor e student quiz.id = true) →
      ∃ sFinal, (start_attempt db choice now newId student quiz).2 =
        [db, { db with attempts := db.attempts ++ [startAttemptRow newId student quiz] },
         sFinal]) ∧
    (atMostOneInProgress db →
      ∀ s ∈ (start_attempt db choice now newId student quiz).2,
        atMostOneInProgress s) := by
  refine ⟨rfl, ?_, ?_, ?_, ?_⟩
  · rcases heq : db.attempts.find? (fun a => inProgressFor a student quiz.id)
      with _ | existing
    · have hnone := List.find?_eq_none.mp heq
      have hnoex : ¬ ∃ e ∈ db.attempts, inProgressFor e student quiz.id = true := by
        rintro ⟨e, he, hpe⟩
        exact absurd hpe (by simpa using hnone e he)
      unfold start_attempt
      simp only [heq]
      split
      · exact iff_of_false (by simp [StartOutcome.isConflict]) hnoex
      · exact iff_of_false (by simp [StartOutcome.isConflict]) hnoex
    · have hpred : inProgressFor existing student quiz.id = true := by
        have hp := List.find?_some heq
        simpa using hp
      unfold start_attempt
      simp only [heq]
      exact iff_of_true (by simp [StartOutcome.isConflict])
        ⟨existing, List.mem_of_find?_eq_some heq, hpred⟩
  · intro eid
    rcases heq : db.attempts.find? (fun a => inProgressFor a student quiz.id)
      with _ | existing
    · unfold start_attempt
      simp only [heq]
      split
      · intro hconf; simp at hconf
      · intro hconf; simp at hconf
    · have hpred : inProgressFor existing student quiz.id = true := by
        have hp := List.find?_some heq
        simpa using hp
      unfold start_attempt
      simp only [heq]
      intro hconf
      have hid : some existing.id = some eid := by simpa using hconf
      exact ⟨existing, List.mem_of_find?_eq_some heq, hpred, Option.some.inj hid⟩
  · intro hno
    rcases heq : db.attempts.find? (fun a => inProgressFor a student quiz.id)
      with _ | existing
    · unfold start_attempt
      simp only [heq]
      split
      · exact ⟨_, rfl⟩
      · exact ⟨_, rfl⟩
    · have hpred : inProgressFor existing student quiz.id = true := by
        have hp := List.find?_some heq
        simpa using hp
      exact absurd ⟨existing, List.mem_of_find?_eq_some heq, hpred⟩ hno
  · intro hinv s hs
    rcases heq : db.attempts.find? (fun a => inProgressFor a student quiz.id)
      with _ | existing
    · have hnone := List.find?_eq_none.mp heq
      have hnoclash : ∀ (r : QuizAttempt), r.student = student →
          r.quiz = some quiz →
          ∀ e ∈ db.attempts, e.status = AttemptStatus.IN_PROGRESS →
            e.student = r.student → e.quiz.map Quiz.id = r.quiz.map Quiz.id → False := by
        intro r hrs hrq e he hes hestu heq2
        have hmem : inProgressFor e student quiz.id = true := by
          apply inProgressFor_of_fields hes (by rw [hestu, hrs])
          rw [heq2, hrq]
          simp
        exact absurd hmem (by simpa using hnone e he)
      have hinv1 : atMostOneInProgress
          { db with attempts := db.attempts ++ [startAttemptRow newId student quiz] } := by
        apply atMostOneInProgress_append db _ (startAttemptRow newId student quiz) rfl hinv
        intro _ e he hes hestu heq2
        exact hnoclash (startAttemptRow newId student quiz) rfl rfl e he hes hestu heq2
      unfold start_attempt at hs
      simp only [heq] at hs
      split at hs
      · simp only [List.mem_cons, List.not_mem_nil, or_false] at hs
        rcases hs with hs | hs | hs
        · exact hs ▸ hinv
        · exact hs ▸ hinv1
        · subst hs
          apply atMostOneInProgress_append db _
            { startAttemptRow newId student quiz with
              status := AttemptStatus.COMPLETED, ended_at := some now }
            (setAttempt_append_fresh db (startAttemptRow newId student quiz) _
              (by simpa [startAttemptRow] using hfresh) (by simp [startAttemptRow]))
            hinv
          intro hrow
          simp only [startAttemptRow] at hrow
          exact absurd hrow (by decide)
      · next q _ =>
          simp only [List.mem_cons, List.not_mem_nil, or_false] at hs
          rcases hs with hs | hs | hs
          · exact hs ▸ hinv
          · exact hs ▸ hinv1
          · subst hs
            apply atMostOneInProgress_append db _
              { startAttemptRow newId student quiz with
                current_question := some q.id }
              (setAttempt_append_fresh db (startAttemptRow newId student quiz) _
                (by simpa [startAttemptRow] using hfresh) (by simp [startAttemptRow]))
              hinv
            intro _ e he hes hestu heq2
            exact hnoclash _ rfl rfl e he hes hestu heq2
    · unfold start_attempt at hs
      simp only [heq] at hs
      simp only [List.mem_singleton] at hs
      exact hs ▸ hinv


/-- **C8 witness.** The start-attempt theorem applied to the sample
database, where an IN_PROGRESS attempt for (student 9, quiz 7) exists. -/
theorem start_attempt_spec_witness :
    (∀ a ∈ sampleDB.attempts, a.id ≠ 77) ∧
    ((startAttemptRow 77 9 sampleQuiz =
       { id := 77, student := 9, quiz := some sampleQuiz,
         current_question := none, status := AttemptStatus.IN_PROGRESS,
         current_difficulty := Difficulty.MEDIUM,
         num_answered := 0, num_correct := 0, ended_at := none }) ∧
     ((start_attempt sampleDB headChoice 50 77 9 sampleQuiz).1.isConflict = true ↔
       ∃ e ∈ sampleDB.attempts, inProgressFor e 9 sampleQuiz.id = true) ∧
     (∀ eid, (start_attempt sampleDB headChoice 50 77 9 sampleQuiz).1 =
         StartOutcome.conflict (some eid) →
       ∃ e ∈ sampleDB.attempts, inProgressFor e 9 sampleQuiz.id = true ∧ e.id = eid) ∧
     ((¬ ∃ e ∈ sampleDB.attempts, inProgressFor e 9 sampleQuiz.id = true) →
       ∃ sFinal, (start_attempt sampleDB headChoice 50 77 9 sampleQuiz).2 =
         [sampleDB,
          { sampleDB with attempts :=
              sampleDB.attempts ++ [startAttemptRow 77 9 sampleQuiz] }, sFinal]) ∧
     (atMostOneInProgress sampleDB →
       ∀ s ∈ (start_attempt sampleDB headChoice 50 77 9 sampleQuiz).2,
         atMostOneInProgress s)) :=
  ⟨by decide, start_attempt_spec sampleDB headChoice 50 77 9 sampleQuiz (by decide)⟩

/-- **C7 (code bug).** `StartAttemptView.create` has no transaction
wrapper, so `QuizAttempt.objects.create` commits before the first
question is selected and saved: on a one-question chapter the second
committed state of the run contains a persisted IN_PROGRESS attempt
with `current_question = None`, which only the third commit fills in —
a partial update visible to a concurrent reader (or left behind by a
crash between the commits), contradicting the claimed atomicity. -/
theorem start_attempt_not_atomic :
    (let db0 : DB := { questions := [sampleQ1], attempts := [], answers := [] }
     let run := start_attempt db0 headChoice 50 5 9 sampleQuiz
     run.1 = StartOutcome.created 5 sampleQ1 ∧
     run.2.length = 3 ∧
     (∃ s ∈ run.2, ∃ a ∈ s.attempts,
        a.status = AttemptStatus.IN_PROGRESS ∧ a.current_question = none) ∧
     (∀ a ∈ (run.2.getLastD db0).attempts,
        a.status = AttemptStatus.IN_PROGRESS ∧ a.current_question = some 1)) := by
  decide

/--
**C9.** Every question payload the engine returns to a student — the
question of a `start_attempt` response, the `next_question` of a
`submit_answer` response, and the `current_question` of the attempt
detail — is produced by `QuestionStudentSerializer` and carries exactly
the fields `id`, `prompt`, `choices`, `difficulty`; `correct_index`
never appears, and the payload is unchanged under any change of the
question's `correct_index`.
-/
theorem question_student_payload_fields :
    (∀ q : Question, (serializeQuestionStudent q).map Prod.fst = questionStudentFields) ∧
    (∀ q : Question, "correct_index" ∉ (serializeQuestionStudent q).map Prod.fst) ∧
    (∀ (q : Question) (x : Int),
      serializeQuestionStudent { q with correct_index := x } = serializeQuestionStudent q) ∧
    (∀ out pl, startAttemptQuestionPayload out = some pl →
      pl.map Prod.fst = questionStudentFields ∧ "correct_index" ∉ pl.map Prod.fst) ∧
    (∀ out pl, submitAnswerQuestionPayload out = some pl →
      pl.map Prod.fst = questionStudentFields ∧ "correct_index" ∉ pl.map Prod.fst) ∧
    (∀ db attempt pl, attemptDetailQuestionPayload db attempt = some pl →
      pl.map Prod.fst = questionStudentFields ∧ "correct_index" ∉ pl.map Prod.fst) := by
  have hfields : ∀ q : Question,
      (serializeQuestionStudent q).map Prod.fst = questionStudentFields := fun q => rfl
  have hno : ∀ q : Question,
      "correct_index" ∉ (serializeQuestionStudent q).map Prod.fst := by
    intro q
    rw [hfields q]
    decide
  refine ⟨hfields, hno, fun q x => rfl, ?_, ?_, ?_⟩
  · intro out pl h
    cases out with
    | conflict eid => simp [startAttemptQuestionPayload] at h
    | completedEmpty i => simp [startAttemptQuestionPayload] at h
    | created i q =>
        have hpl : pl = serializeQuestionStudent q :=
          (Option.some.inj h).symm
        rw [hpl]
        exact ⟨hfields q, hno q⟩
  · intro out pl h
    cases out with
    | error m c => simp [submitAnswerQuestionPayload] at h
    | completed c => simp [submitAnswerQuestionPayload] at h
    | next c q =>
        have hpl : pl = serializeQuestionStudent q :=
          (Option.some.inj h).symm
        rw [hpl]
        exact ⟨hfields q, hno q⟩
  · intro db attempt pl h
    rcases hcq : attempt.current_question with _ | cq
    · rw [attemptDetailQuestionPayload, hcq] at h
      simp at h
    · rw [attemptDetailQuestionPayload, hcq] at h
      simp only [Option.some_bind] at h
      rcases hget : getQuestion db cq with _ | q
      · rw [hget] at h; simp at h
      · rw [hget] at h
        have hpl : pl = serializeQuestionStudent q := by
          simpa using h.symm
        rw [hpl]
        exact ⟨hfields q, hno q⟩

/-- **C9 witness.** The payload theorem applied to the attempt-detail
payload of the sample attempt (current question 1). -/
theorem question_student_payload_fields_witness :
    attemptDetailQuestionPayload sampleDB sampleAttempt =
      some (serializeQuestionStudent sampleQ1) ∧
    ((serializeQuestionStudent sampleQ1).map Prod.fst = questionStudentFields ∧
     "correct_index" ∉ (serializeQuestionStudent sampleQ1).map Prod.fst) :=
  ⟨by decide, question_student_payload_fields.2.2.2.2.2 sampleDB sampleAttempt
      (serializeQuestionStudent sampleQ1) (by decide)⟩

end Quizzes
